import Mathlib

/-!
Verification of the network-interface snapshot tool (src/GetIP/main.cpp).

The C++ program has three parts:
* `GetNetworkInfo` enumerates the OS interface-address list (getifaddrs),
  skips loopback / address-less entries, formats the IPv4 address and the
  ioctl-queried MAC address, and keeps records with both fields non-empty;
* `CheckInternetConnection` probes 8.8.8.8:53 with a non-blocking connect,
  a select bounded by a timeout, and an SO_ERROR read;
* `main` runs the probe on a detached thread, prints the interface records,
  sleeps a fixed 2 seconds, and prints the reachability line from the
  shared boolean slot.

The embedding is a shallow one: OS behaviour (the getifaddrs snapshot, the
per-interface socket/ioctl outcomes, the connect/select/getsockopt results)
is passed in explicitly, and each embedded function additionally returns the
trace of socket open/close events so that resource-safety claims can be
stated.
-/

namespace GetIP

/-- Address attached to one getifaddrs entry: either an AF_INET address
(four raw octets of sin_addr) or an address of some other family. -/
inductive Addr where
  | inet (a b c d : Fin 256)
  | otherFamily
  deriving DecidableEq, Repr

/-- One entry of the list produced by getifaddrs: interface name, optional
address pointer (none models a null ifa_addr), and the IFF_LOOPBACK bit of
ifa_flags. -/
structure IfEntry where
  name : String
  addr : Option Addr
  loopback : Bool
  deriving DecidableEq, Repr

/-- Six raw bytes of ifr_hwaddr.sa_data, as returned by SIOCGIFHWADDR. -/
structure Mac where
  b0 : Fin 256
  b1 : Fin 256
  b2 : Fin 256
  b3 : Fin 256
  b4 : Fin 256
  b5 : Fin 256
  deriving DecidableEq, Repr

/-- Outcome of the per-interface MAC lookup syscalls, keyed by interface
name: `sockfd` is the result of socket(AF_INET, SOCK_DGRAM, 0) (none models
a negative return), `hw` is the result of ioctl(SIOCGIFHWADDR) (none models
a non-zero return). -/
structure MacQuery where
  sockfd : Option Nat
  hw : Option Mac
  deriving DecidableEq, Repr

/-- One record of the returned vector<NetworkInterface>. The C++ struct has
a fourth field has_internet that is never assigned nor read by the program,
so it is omitted. -/
structure NetworkInterface where
  name : String
  ip : String
  mac : String
  deriving DecidableEq, Repr

/-- Socket lifecycle event, used to trace acquisition and release of
throwaway socket handles. -/
inductive SockEvent where
  | opened (fd : Nat)
  | closed (fd : Nat)
  deriving DecidableEq, Repr

/-- File descriptors opened in a trace, in order. -/
def opensOf : List SockEvent → List Nat
  | [] => []
  | SockEvent.opened fd :: t => fd :: opensOf t
  | SockEvent.closed _ :: t => opensOf t

/-- File descriptors closed in a trace, in order. -/
def closesOf : List SockEvent → List Nat
  | [] => []
  | SockEvent.opened _ :: t => closesOf t
  | SockEvent.closed fd :: t => fd :: closesOf t

/-- The two characters printed by snprintf %02x for one unsigned char: the
zero-padded pair of lowercase hex digits of its value. Nat.digitChar maps
0-15 to the same lowercase digits the %x printf family prints. -/
def byteHexChars (b : Fin 256) : List Char :=
  [Nat.digitChar (b.val / 16), Nat.digitChar (b.val % 16)]

/-- The string built by snprintf("%02x:%02x:%02x:%02x:%02x:%02x", ...) over
the six bytes of the hardware address. -/
def formatMac (m : Mac) : String :=
  String.mk (byteHexChars m.b0 ++ ':' :: byteHexChars m.b1 ++ ':' :: byteHexChars m.b2 ++
    ':' :: byteHexChars m.b3 ++ ':' :: byteHexChars m.b4 ++ ':' :: byteHexChars m.b5)

/-- Decimal dotted-quad string produced by inet_ntop(AF_INET, ...). -/
def ipString (a b c d : Fin 256) : String :=
  toString a.val ++ "." ++ toString b.val ++ "." ++ toString c.val ++ "." ++ toString d.val

/-- The IPv4 field assigned for an entry: inet_ntop output when the entry
family is AF_INET, and the empty string (the default std::string) otherwise. -/
def ipOf : Option Addr → String
  | some (Addr.inet a b c d) => ipString a b c d
  | _ => ""

/-- Test for the sa_family == AF_INET comparison on an optional address. -/
def isInet : Option Addr → Bool
  | some (Addr.inet _ _ _ _) => true
  | _ => false

/-- The mac field assigned by the lookup block: the formatted hardware
address when both the socket creation and the ioctl succeed, and the empty
string (the default std::string) otherwise. -/
def macString (q : MacQuery) : String :=
  match q.sockfd, q.hw with
  | some _, some m => formatMac m
  | _, _ => ""

/-- Socket events of the lookup block: when socket() succeeds the handle is
closed regardless of the ioctl outcome; when it fails nothing is acquired. -/
def macTrace (q : MacQuery) : List SockEvent :=
  match q.sockfd with
  | some fd => [SockEvent.opened fd, SockEvent.closed fd]
  | none => []

/-- Body of the per-entry loop of GetNetworkInfo, after the continue guard:
builds the candidate record for one getifaddrs entry and the socket trace of
its MAC lookup, then applies the completeness filter. Loopback entries and
entries with a null address pointer are skipped by the guard and produce
nothing, including no syscalls. -/
def processEntry (macEnv : String → MacQuery) (e : IfEntry) :
    Option NetworkInterface × List SockEvent :=
  if e.addr.isNone || e.loopback then (none, [])
  else
    let ip := ipOf e.addr
    let mac := macString (macEnv e.name)
    if ip ≠ "" && mac ≠ "" then
      (some { name := e.name, ip := ip, mac := mac }, macTrace (macEnv e.name))
    else (none, macTrace (macEnv e.name))

/-- Result of one GetNetworkInfo call: the stderr lines, the returned
vector, and the trace of MAC-lookup socket events. -/
structure EnumResult where
  log : List String
  records : List NetworkInterface
  events : List SockEvent
  deriving DecidableEq, Repr

/-- Loop of GetNetworkInfo over the getifaddrs entries. -/
def enumLoop (macEnv : String → MacQuery) : List IfEntry → List NetworkInterface × List SockEvent
  | [] => ([], [])
  | e :: t =>
    let r := processEntry macEnv e
    let rest := enumLoop macEnv t
    (r.1.toList ++ rest.1, r.2 ++ rest.2)

/-- GetNetworkInfo. The getifaddrs call is modelled as an Except value: an
error carries the strerror(errno) text; success carries the snapshot list.
On error the function prints one descriptive stderr line and returns the
empty vector. -/
def GetNetworkInfo (ifaddrs : Except String (List IfEntry)) (macEnv : String → MacQuery) :
    EnumResult :=
  match ifaddrs with
  | Except.error msg =>
      { log := ["Error: getifaddrs() failed (" ++ msg ++ ")"], records := [], events := [] }
  | Except.ok entries =>
      let r := enumLoop macEnv entries
      { log := [], records := r.1, events := r.2 }

/-- Immediate outcome of the non-blocking connect call: a non-negative
return, a negative return with errno EINPROGRESS, or a negative return with
any other errno. -/
inductive ConnectOutcome where
  | ok
  | inProgress
  | failed
  deriving DecidableEq, Repr

/-- Syscall outcomes seen by one CheckInternetConnection call: the socket()
result (none models a negative return), whether inet_pton accepted the
target address, the connect outcome, the select return value, and the
SO_ERROR value read by getsockopt. -/
structure ProbeEnv where
  sockfd : Option Nat
  ptonOk : Bool
  connectRes : ConnectOutcome
  selectRet : Int
  soError : Nat
  deriving DecidableEq, Repr

/-- Result of one CheckInternetConnection call: the returned boolean and the
trace of socket events. -/
structure ProbeResult where
  result : Bool
  events : List SockEvent
  deriving DecidableEq, Repr

/-- CheckInternetConnection. Follows the C++ control flow: socket creation
failure returns false at once; inet_pton failure closes the socket and
returns false; an immediate connect failure with errno other than
EINPROGRESS closes the socket and returns false; otherwise the function
selects on writability, reads SO_ERROR, closes the socket, and returns
ret > 0 && error == 0. -/
def CheckInternetConnection (env : ProbeEnv) : ProbeResult :=
  match env.sockfd with
  | none => { result := false, events := [] }
  | some fd =>
    if !env.ptonOk then
      { result := false, events := [SockEvent.opened fd, SockEvent.closed fd] }
    else
      match env.connectRes with
      | ConnectOutcome.failed =>
          { result := false, events := [SockEvent.opened fd, SockEvent.closed fd] }
      | _ =>
          { result := decide (env.selectRet > 0) && decide (env.soError = 0),
            events := [SockEvent.opened fd, SockEvent.closed fd] }

/-- The reachability word printed by main for a slot value. -/
def renderReachability (b : Bool) : String :=
  if b then "Available" else "Unavailable"

/-- State of the detached probe thread at the moment the coordinator's fixed
sleep expires: some env when the thread has finished its call (having
observed those syscall outcomes), none when it has not finished writing the
shared slot. -/
def slotAtDeadline (probeDone : Option ProbeEnv) : Bool :=
  match probeDone with
  | some env => (CheckInternetConnection env).result
  | none => false

/-- Lines printed for one interface record. -/
def renderRecord (r : NetworkInterface) : List String :=
  ["Interface: " ++ r.name, "  IPv4:    " ++ r.ip, "  MAC:     " ++ r.mac, "  --------"]

/-- Observable outcome of one run of main: the stdout lines and the number
of seconds the coordinator sleeps before reading the shared slot. -/
structure MainResult where
  lines : List String
  waitSeconds : Nat
  deriving DecidableEq, Repr

/-- The coordinator (main): enumerates interfaces, prints the records, then
sleeps a fixed 2 seconds and prints the reachability line from whatever the
shared slot holds at that point (the initial false when the detached probe
thread has not finished). -/
def mainRun (ifaddrs : Except String (List IfEntry)) (macEnv : String → MacQuery)
    (probeDone : Option ProbeEnv) : MainResult :=
  let interfaces := (GetNetworkInfo ifaddrs macEnv).records
  let hasInternet := slotAtDeadline probeDone
  { lines := "Network Interfaces:" :: interfaces.flatMap renderRecord ++
      ["", "Internet Access: " ++ renderReachability hasInternet],
    waitSeconds := 2 }

/-- Predicate for the spec sentence "six lowercase hex octet pairs joined by
colons": a character is a lowercase hexadecimal digit. -/
def isHexLower (c : Char) : Bool :=
  ('0' ≤ c && c ≤ '9') || ('a' ≤ c && c ≤ 'f')

/-- Predicate for the MAC string format: exactly six two-character groups of
lowercase hex digits separated by single colons. -/
def isMacFormat (s : String) : Bool :=
  match s.toList with
  | [a0, a1, ':', b0, b1, ':', c0, c1, ':', d0, d1, ':', e0, e1, ':', f0, f1] =>
      [a0, a1, b0, b1, c0, c1, d0, d1, e0, e1, f0, f1].all isHexLower
  | _ => false

/-- Modelled from the spec (section 3, ReachabilityResult): a tri-state
probe outcome. The C++ function collapses it to a boolean, so the tri-state
type itself is absent from src/GetIP/main.cpp; it exists in the spec only. -/
inductive ReachabilityResult where
  | reachable
  | unreachable
  | indeterminate
  deriving DecidableEq, Repr

/-- Modelled from the spec (section 4.2): classification of a probe run into
the tri-state outcome. Setup failures (socket creation, address
construction) are indeterminate; an immediate connect failure, a select
without readiness, or a non-zero pending error are unreachable; otherwise
reachable. -/
def specProbeClassify (env : ProbeEnv) : ReachabilityResult :=
  match env.sockfd with
  | none => ReachabilityResult.indeterminate
  | some _ =>
    if !env.ptonOk then ReachabilityResult.indeterminate
    else
      match env.connectRes with
      | ConnectOutcome.failed => ReachabilityResult.unreachable
      | _ =>
          if env.selectRet > 0 ∧ env.soError = 0 then ReachabilityResult.reachable
          else ReachabilityResult.unreachable

/-- Modelled from the spec (section 7c): the tri-state result collapses to a
boolean at the reporting boundary, reachable mapping to true. -/
def specCollapse (r : ReachabilityResult) : Bool :=
  match r with
  | ReachabilityResult.reachable => true
  | _ => false

/-! Helper lemmas. -/

theorem opensOf_append (t1 t2 : List SockEvent) :
    opensOf (t1 ++ t2) = opensOf t1 ++ opensOf t2 := by
  induction t1 with
  | nil => rfl
  | cons e t ih => cases e <;> simp [opensOf, ih]

theorem closesOf_append (t1 t2 : List SockEvent) :
    closesOf (t1 ++ t2) = closesOf t1 ++ closesOf t2 := by
  induction t1 with
  | nil => rfl
  | cons e t ih => cases e <;> simp [closesOf, ih]

theorem macTrace_balanced (q : MacQuery) :
    opensOf (macTrace q) = closesOf (macTrace q) := by
  cases h : q.sockfd <;> simp [macTrace, h, opensOf, closesOf]

theorem processEntry_snd (macEnv : String → MacQuery) (e : IfEntry) :
    (processEntry macEnv e).2 = [] ∨ (processEntry macEnv e).2 = macTrace (macEnv e.name) := by
  unfold processEntry
  by_cases hg : (e.addr.isNone || e.loopback) = true
  · simp [hg]
  · simp [hg]
    split <;> simp

theorem enumLoop_trace_balanced (macEnv : String → MacQuery) (l : List IfEntry) :
    opensOf (enumLoop macEnv l).2 = closesOf (enumLoop macEnv l).2 := by
  induction l with
  | nil => rfl
  | cons e t ih =>
    simp only [enumLoop, opensOf_append, closesOf_append, ih]
    rcases processEntry_snd macEnv e with h | h <;>
      simp [h, opensOf, closesOf, macTrace_balanced]

theorem mem_enumLoop {macEnv : String → MacQuery} {l : List IfEntry} {r : NetworkInterface}
    (h : r ∈ (enumLoop macEnv l).1) :
    ∃ e ∈ l, (processEntry macEnv e).1 = some r := by
  induction l with
  | nil => simp [enumLoop] at h
  | cons e t ih =>
    simp only [enumLoop, List.mem_append] at h
    rcases h with h | h
    · refine ⟨e, List.mem_cons_self e t, ?_⟩
      cases hp : (processEntry macEnv e).1 with
      | none => simp [hp] at h
      | some r0 => simp [hp] at h; simp [hp, h]
    · obtain ⟨e0, he0, hp⟩ := ih h
      exact ⟨e0, List.mem_cons_of_mem e he0, hp⟩

theorem processEntry_eq_some {macEnv : String → MacQuery} {e : IfEntry} {r : NetworkInterface}
    (h : (processEntry macEnv e).1 = some r) :
    e.addr.isSome = true ∧ e.loopback = false ∧ r.name = e.name ∧ r.ip = ipOf e.addr ∧
      r.ip ≠ "" ∧ r.mac = macString (macEnv e.name) ∧ r.mac ≠ "" := by
  unfold processEntry at h
  by_cases hg : (e.addr.isNone || e.loopback) = true
  · simp [hg] at h
  · simp only [Bool.or_eq_true, not_or, Bool.not_eq_true] at hg
    obtain ⟨ha, hl⟩ := hg
    simp only [ha, hl, Bool.or_self, Bool.false_eq_true, if_false] at h
    split at h
    · rename_i hc
      simp only [Bool.and_eq_true, decide_eq_true_eq] at hc
      cases h
      exact ⟨by simp [Option.isNone_eq_false_iff] at ha; exact ha, hl, rfl, rfl, hc.1, rfl, hc.2⟩
    · simp at h

set_option maxRecDepth 4096 in
theorem byteHexChars_hex (b : Fin 256) :
    (isHexLower (Nat.digitChar (b.val / 16)) && isHexLower (Nat.digitChar (b.val % 16))) = true := by
  revert b; decide

theorem isMacFormat_formatMac (m : Mac) : isMacFormat (formatMac m) = true := by
  have h0 := byteHexChars_hex m.b0
  have h1 := byteHexChars_hex m.b1
  have h2 := byteHexChars_hex m.b2
  have h3 := byteHexChars_hex m.b3
  have h4 := byteHexChars_hex m.b4
  have h5 := byteHexChars_hex m.b5
  simp only [Bool.and_eq_true] at h0 h1 h2 h3 h4 h5
  simp [formatMac, byteHexChars, isMacFormat, h0.1, h0.2, h1.1, h1.2, h2.1, h2.2,
    h3.1, h3.2, h4.1, h4.2, h5.1, h5.2]

theorem formatMac_ne_empty (m : Mac) : formatMac m ≠ "" := by
  simp [formatMac, byteHexChars, String.ext_iff]

theorem ipString_ne_empty (a b c d : Fin 256) : ipString a b c d ≠ "" := by
  intro h
  have hlen := congrArg String.length h
  have hdot : ".".length = 1 := rfl
  simp [ipString, String.length_append, hdot] at hlen

/-- Characterisation of the entries GetNetworkInfo turns into records: the
entry has an address pointer, is not loopback, is of the AF_INET family, and
both the socket creation and the ioctl of its MAC lookup succeed. -/
def qualifies (macEnv : String → MacQuery) (e : IfEntry) : Bool :=
  !e.addr.isNone && !e.loopback && isInet e.addr &&
    (macEnv e.name).sockfd.isSome && (macEnv e.name).hw.isSome

theorem macString_cases (q : MacQuery) :
    (q.sockfd.isSome && q.hw.isSome) = true ∧ (∃ m, q.hw = some m ∧ macString q = formatMac m) ∨
      (q.sockfd.isSome && q.hw.isSome) = false ∧ macString q = "" := by
  cases hs : q.sockfd with
  | none => right; simp [macString, hs]
  | some fd =>
    cases hh : q.hw with
    | none => right; simp [macString, hs, hh]
    | some m => left; exact ⟨by simp [hs, hh], m, rfl, by simp [macString, hs, hh]⟩

theorem ipOf_cases (o : Option Addr) :
    isInet o = true ∧ ipOf o ≠ "" ∨ isInet o = false ∧ ipOf o = "" := by
  match o with
  | none => right; simp [isInet, ipOf]
  | some (Addr.inet a b c d) => left; exact ⟨rfl, ipString_ne_empty a b c d⟩
  | some Addr.otherFamily => right; simp [isInet, ipOf]

theorem processEntry_fst_name (macEnv : String → MacQuery) (e : IfEntry) :
    ((processEntry macEnv e).1).map NetworkInterface.name =
      if qualifies macEnv e then some e.name else none := by
  unfold processEntry qualifies
  by_cases hg : (e.addr.isNone || e.loopback) = true
  · rcases Bool.or_eq_true_iff.mp hg with h | h <;> simp [h]
  · simp only [Bool.or_eq_true, not_or, Bool.not_eq_true] at hg
    obtain ⟨ha, hl⟩ := hg
    rcases ipOf_cases e.addr with ⟨hi, hip⟩ | ⟨hi, hip⟩ <;>
      rcases macString_cases (macEnv e.name) with ⟨hq, m, hhw, hmac⟩ | ⟨hq, hmac⟩
    · have hmne : macString (macEnv e.name) ≠ "" := by
        rw [hmac]; exact formatMac_ne_empty m
      simp [ha, hl, hi, hip, hmne, Bool.and_eq_true] at hq ⊢
      exact hq
    · simp only [Bool.and_eq_false_iff, Bool.not_eq_true] at hq
      rcases hq with hq | hq <;> simp [ha, hl, hi, hip, hmac, hq]
    · simp [ha, hl, hi, hip]
    · simp [ha, hl, hi, hip, hmac]

theorem enumLoop_names (macEnv : String → MacQuery) (l : List IfEntry) :
    (enumLoop macEnv l).1.map NetworkInterface.name =
      (l.filter (qualifies macEnv)).map IfEntry.name := by
  induction l with
  | nil => rfl
  | cons e t ih =>
    have hn := processEntry_fst_name macEnv e
    by_cases hq : qualifies macEnv e = true
    · simp only [hq, if_true] at hn
      cases hp : (processEntry macEnv e).1 with
      | none => simp [hp] at hn
      | some r =>
        simp only [hp, Option.map_some] at hn
        simp [enumLoop, hp, List.filter_cons, hq, ih, Option.some.injEq] at hn ⊢
        exact hn
    · simp only [Bool.not_eq_true] at hq
      simp only [hq, Bool.false_eq_true, if_false] at hn
      cases hp : (processEntry macEnv e).1 with
      | some r => simp [hp] at hn
      | none => simp [enumLoop, hp, List.filter_cons, hq, ih]

theorem probe_result_spec (env : ProbeEnv) :
    (CheckInternetConnection env).result = true ↔
      env.sockfd.isSome = true ∧ env.ptonOk = true ∧
        env.connectRes ≠ ConnectOutcome.failed ∧ 0 < env.selectRet ∧ env.soError = 0 := by
  unfold CheckInternetConnection
  cases hs : env.sockfd with
  | none => simp [hs]
  | some fd =>
    by_cases hp : env.ptonOk = true
    · cases hc : env.connectRes <;> simp [hs, hp, hc, and_assoc]
    · have hp0 : env.ptonOk = false := by simpa using hp
      simp [hs, hp0]

/-! Concrete probe environments used by the witnesses below. -/

/-- Probe run whose socket creation fails. -/
def envNoSocket : ProbeEnv :=
  { sockfd := none, ptonOk := true, connectRes := ConnectOutcome.ok,
    selectRet := 1, soError := 0 }

/-- Probe run with connect in progress that becomes writable with no error. -/
def envInProgress : ProbeEnv :=
  { sockfd := some 4, ptonOk := true, connectRes := ConnectOutcome.inProgress,
    selectRet := 1, soError := 0 }

/-- Probe run whose select call itself fails with a negative return. -/
def envSelectNeg : ProbeEnv :=
  { sockfd := some 4, ptonOk := true, connectRes := ConnectOutcome.inProgress,
    selectRet := -1, soError := 0 }

/-- Probe run whose connect succeeds immediately. -/
def envConnectOk : ProbeEnv :=
  { sockfd := some 4, ptonOk := true, connectRes := ConnectOutcome.ok,
    selectRet := 1, soError := 0 }

/-! Claim theorems. -/

/-- Claim C1: once the probe is set up (socket created, target address
accepted by inet_pton), CheckInternetConnection returns true exactly when
the connect call is initiated (immediate success or EINPROGRESS), select
reports writability with a strictly positive return within the timeout, and
the pending SO_ERROR read by getsockopt is zero; an immediate connect
failure with another errno, a non-positive select return, or a non-zero
pending error each give false. -/
theorem C1_probe_reachable_iff (env : ProbeEnv) (fd : Nat)
    (hs : env.sockfd = some fd) (hp : env.ptonOk = true) :
    (CheckInternetConnection env).result = true ↔
      env.connectRes ≠ ConnectOutcome.failed ∧ 0 < env.selectRet ∧ env.soError = 0 := by
  rw [probe_result_spec env]
  simp [hs, hp]

/-- Witness for C1 at a concrete environment: socket fd 4, address ok,
connect in progress, select returns 1, SO_ERROR zero. -/
theorem C1_probe_reachable_iff_witness :
    (CheckInternetConnection envInProgress).result = true :=
  (C1_probe_reachable_iff envInProgress 4 rfl rfl).mpr (by decide)

/-- Claim C10: a failing bounded wait (negative select return) makes the
probe return false just like a timeout does, and a true result requires a
strictly positive select return together with a zero pending socket error. -/
theorem C10_select_failure (env : ProbeEnv) :
    (env.selectRet < 0 → (CheckInternetConnection env).result = false) ∧
      ((CheckInternetConnection env).result = true →
        0 < env.selectRet ∧ env.soError = 0) := by
  constructor
  · intro h
    cases hr : (CheckInternetConnection env).result
    · rfl
    · have hc := ((probe_result_spec env).mp hr).2.2.2.1
      omega
  · intro h
    exact ((probe_result_spec env).mp h).2.2.2

/-- Witness for C10: a probe interrupted during select (return -1) yields
false, and a completed reachable probe has a positive select return and a
zero pending error. -/
theorem C10_select_failure_witness :
    (CheckInternetConnection envSelectNeg).result = false ∧
      (0 < envConnectOk.selectRet ∧ envConnectOk.soError = 0) :=
  ⟨(C10_select_failure envSelectNeg).1 (by decide),
    (C10_select_failure envConnectOk).2 (by decide)⟩

/-- Claim C7: a probe setup failure, that is a failed socket creation or a
failed target-address construction, is the indeterminate tri-state outcome
of the spec, and the probe function returns false, which the reporting
boundary renders as the word Unavailable. -/
theorem C7_setup_failure (env : ProbeEnv)
    (h : env.sockfd = none ∨ env.ptonOk = false) :
    specProbeClassify env = ReachabilityResult.indeterminate ∧
      (CheckInternetConnection env).result = false ∧
      renderReachability (CheckInternetConnection env).result = "Unavailable" := by
  have hres : (CheckInternetConnection env).result = false := by
    cases hr : (CheckInternetConnection env).result
    · rfl
    · have hspec := (probe_result_spec env).mp hr
      rcases h with h | h
      · rw [h] at hspec; simp at hspec
      · rw [h] at hspec; simp at hspec
  refine ⟨?_, hres, by rw [hres]; rfl⟩
  unfold specProbeClassify
  rcases h with h | h
  · rw [h]
  · cases hs : env.sockfd <;> simp [h]

/-- Witness for C7 at a concrete environment where socket creation fails. -/
theorem C7_setup_failure_witness :
    specProbeClassify envNoSocket = ReachabilityResult.indeterminate ∧
      (CheckInternetConnection envNoSocket).result = false ∧
      renderReachability (CheckInternetConnection envNoSocket).result = "Unavailable" :=
  C7_setup_failure envNoSocket (Or.inl rfl)

/-- Claim C6: when getifaddrs fails, GetNetworkInfo prints one descriptive
stderr line carrying the strerror text and returns the empty vector, with
no socket activity; it does not terminate the process (in the embedding it
is a total function producing this value). -/
theorem C6_getifaddrs_failure (msg : String) (macEnv : String → MacQuery) :
    GetNetworkInfo (Except.error msg) macEnv =
      { log := ["Error: getifaddrs() failed (" ++ msg ++ ")"], records := [],
        events := [] } := rfl

/-- Claim C8: every throwaway socket handle that is successfully opened is
closed before the enclosing function returns, on every exit path: the probe
socket of CheckInternetConnection on the address-failure, immediate connect
failure, timeout and success paths, and the per-interface MAC-lookup socket
of GetNetworkInfo whether or not the ioctl succeeds. The opened and closed
file descriptors of each trace coincide. -/
theorem C8_sockets_closed (env : ProbeEnv) (ifaddrs : Except String (List IfEntry))
    (macEnv : String → MacQuery) :
    opensOf (CheckInternetConnection env).events = closesOf (CheckInternetConnection env).events ∧
      opensOf (GetNetworkInfo ifaddrs macEnv).events =
        closesOf (GetNetworkInfo ifaddrs macEnv).events := by
  constructor
  · unfold CheckInternetConnection
    cases hs : env.sockfd with
    | none => rfl
    | some fd =>
      by_cases hp : env.ptonOk = true
      · cases hc : env.connectRes <;> simp [hp, hc, opensOf, closesOf]
      · have hp0 : env.ptonOk = false := by simpa using hp
        simp [hp0, opensOf, closesOf]
  · cases ifaddrs with
    | error msg => rfl
    | ok entries =>
      simpa [GetNetworkInfo] using enumLoop_trace_balanced macEnv entries

/-- Claim C9: two calls of the enumeration against the same OS snapshot and
the same per-interface query outcomes return identical record sequences
(hence set-equal ones); the function has no state of its own. -/
theorem C9_enumerate_idempotent (i1 i2 : Except String (List IfEntry))
    (m1 m2 : String → MacQuery) (hi : i1 = i2) (hm : ∀ s, m1 s = m2 s) :
    (GetNetworkInfo i1 m1).records = (GetNetworkInfo i2 m2).records := by
  subst hi
  have hmeq : m1 = m2 := funext hm
  rw [hmeq]

/-- Witness for C9 at a concrete snapshot queried twice. -/
theorem C9_enumerate_idempotent_witness :
    (GetNetworkInfo (Except.ok []) (fun _ => { sockfd := none, hw := none })).records =
      (GetNetworkInfo (Except.ok []) (fun _ => { sockfd := none, hw := none })).records :=
  C9_enumerate_idempotent (Except.ok []) (Except.ok [])
    (fun _ => { sockfd := none, hw := none }) (fun _ => { sockfd := none, hw := none })
    rfl (fun _ => rfl)

/-- Claim C2: every record returned by GetNetworkInfo has a non-empty ipv4
field and a non-empty hardware-address field, and the hardware-address field
is six lowercase hex octet pairs joined by colons. -/
theorem C2_records_wellformed (ifaddrs : Except String (List IfEntry))
    (macEnv : String → MacQuery) (r : NetworkInterface)
    (h : r ∈ (GetNetworkInfo ifaddrs macEnv).records) :
    r.ip ≠ "" ∧ r.mac ≠ "" ∧ isMacFormat r.mac = true := by
  cases ifaddrs with
  | error msg => simp [GetNetworkInfo] at h
  | ok entries =>
    simp only [GetNetworkInfo] at h
    obtain ⟨e, he, hp⟩ := mem_enumLoop h
    obtain ⟨-, -, -, -, hip, hmac_eq, hmac⟩ := processEntry_eq_some hp
    refine ⟨hip, hmac, ?_⟩
    rcases macString_cases (macEnv e.name) with ⟨-, m, -, hm⟩ | ⟨-, hm⟩
    · rw [hmac_eq, hm]
      exact isMacFormat_formatMac m
    · rw [hmac_eq] at hmac
      exact absurd hm hmac

/-! Concrete enumeration inputs used by the witnesses and the C3
counterexample. -/

/-- Query environment where every MAC lookup succeeds with bytes
aa:bb:cc:dd:ee:ff on socket fd 3. -/
def wMacEnv : String → MacQuery :=
  fun _ => { sockfd := some 3,
             hw := some { b0 := 170, b1 := 187, b2 := 204, b3 := 221, b4 := 238, b5 := 255 } }

/-- A qualifying AF_INET entry named eth0. -/
def wEntry : IfEntry :=
  { name := "eth0", addr := some (Addr.inet 192 168 1 2), loopback := false }

/-- A loopback entry carrying an AF_INET address. -/
def lpEntry : IfEntry :=
  { name := "lo", addr := some (Addr.inet 127 0 0 1), loopback := true }

/-- The record GetNetworkInfo builds from wEntry under wMacEnv. -/
def wRecord : NetworkInterface :=
  { name := "eth0", ip := "192.168.1.2", mac := "aa:bb:cc:dd:ee:ff" }

/-- Witness for C2 at a concrete snapshot of one qualifying interface. -/
theorem C2_records_wellformed_witness :
    wRecord.ip ≠ "" ∧ wRecord.mac ≠ "" ∧ isMacFormat wRecord.mac = true :=
  C2_records_wellformed (Except.ok [wEntry]) wMacEnv wRecord (by decide)

/-- Claim C5: every record of the returned sequence comes from an entry of
the OS list that does not carry the loopback flag and whose address pointer
is present; loopback entries are skipped before any processing. -/
theorem C5_no_loopback (entries : List IfEntry) (macEnv : String → MacQuery)
    (r : NetworkInterface) (h : r ∈ (GetNetworkInfo (Except.ok entries) macEnv).records) :
    ∃ e, e ∈ entries ∧ e.loopback = false ∧ e.addr.isSome = true ∧
      (processEntry macEnv e).1 = some r := by
  simp only [GetNetworkInfo] at h
  obtain ⟨e, he, hp⟩ := mem_enumLoop h
  obtain ⟨ha, hl, -⟩ := processEntry_eq_some hp
  exact ⟨e, he, hl, ha, hp⟩

/-- Witness for C5: in a snapshot holding a loopback entry and a qualifying
entry, the returned record stems from a non-loopback entry. -/
theorem C5_no_loopback_witness :
    ∃ e, e ∈ [lpEntry, wEntry] ∧ e.loopback = false ∧ e.addr.isSome = true ∧
      (processEntry wMacEnv e).1 = some wRecord :=
  C5_no_loopback [lpEntry, wEntry] wMacEnv wRecord (by decide)

/-- Claim C4: the coordinator sleeps the fixed 2 seconds whatever the state
of the detached probe, and when the probe has not finished by the deadline
the shared slot still holds its initial false, so the final line printed is
the Unavailable one. -/
theorem C4_fixed_deadline (ifaddrs : Except String (List IfEntry))
    (macEnv : String → MacQuery) (probeDone : Option ProbeEnv) :
    (mainRun ifaddrs macEnv probeDone).waitSeconds = 2 ∧
      (probeDone = none →
        slotAtDeadline probeDone = false ∧
        (mainRun ifaddrs macEnv probeDone).lines.getLast? =
          some "Internet Access: Unavailable") := by
  refine ⟨rfl, fun h => ⟨by rw [h]; rfl, ?_⟩⟩
  subst h
  simp only [mainRun]
  rw [List.getLast?_append]
  rfl

/-- Witness for C4 at a concrete run whose probe misses the deadline. -/
theorem C4_fixed_deadline_witness :
    (mainRun (Except.ok [wEntry]) wMacEnv none).waitSeconds = 2 ∧
      (slotAtDeadline none = false ∧
        (mainRun (Except.ok [wEntry]) wMacEnv none).lines.getLast? =
          some "Internet Access: Unavailable") :=
  ⟨(C4_fixed_deadline (Except.ok [wEntry]) wMacEnv none).1,
    (C4_fixed_deadline (Except.ok [wEntry]) wMacEnv none).2 rfl⟩

/-! Claim C3 concerns uniqueness of interface names in the snapshot. The
code keeps one record per qualifying getifaddrs entry and never collapses
entries sharing a name, so a name bound to two IPv4-family entries appears
twice. -/

/-- First of two AF_INET entries sharing the name eth1. -/
def dupEntry1 : IfEntry :=
  { name := "eth1", addr := some (Addr.inet 10 0 0 1), loopback := false }

/-- Second AF_INET entry with the same name eth1 and a different address. -/
def dupEntry2 : IfEntry :=
  { name := "eth1", addr := some (Addr.inet 10 0 0 2), loopback := false }

/-- Counterexample to claim C3: a snapshot in which the name eth1 carries
two IPv4-family entries produces two records both named eth1, so the name
list of the returned snapshot is not duplicate-free and the second IPv4
entry is not dropped. -/
theorem C3_names_not_unique_cex :
    (GetNetworkInfo (Except.ok [dupEntry1, dupEntry2]) wMacEnv).records.map
        NetworkInterface.name = ["eth1", "eth1"] ∧
      ¬ ((GetNetworkInfo (Except.ok [dupEntry1, dupEntry2]) wMacEnv).records.map
          NetworkInterface.name).Nodup := by
  constructor
  · decide
  · decide

/-- Claim C3 as amended: every entry of the OS list that passes the filters
(address present, not loopback, AF_INET family, MAC lookup fully
successful) contributes exactly one record, in order, so an interface name
with several IPv4-family entries appears once per such entry and interface
names are not necessarily unique in the snapshot. -/
theorem C3_record_per_inet_entry (entries : List IfEntry) (macEnv : String → MacQuery) :
    (GetNetworkInfo (Except.ok entries) macEnv).records.map NetworkInterface.name =
      (entries.filter (qualifies macEnv)).map IfEntry.name := by
  simpa [GetNetworkInfo] using enumLoop_names macEnv entries

end GetIP
